import Mathlib

/-!
Shallow embedding of the Space Invaders game core (`src/client/game.ts`):
the per-frame `update` simulation (player movement, firing debounce, bullet
advance, formation advance, collision resolution, game-over and
level-complete checks), `resetGame`, and the localStorage-backed score
store (`saveScore` / `getHighScores`).

JavaScript numbers are modelled as `ℚ` (all arithmetic appearing in the
game is exact decimal/rational arithmetic), scores and hit points as `ℤ`.
The key/value persistence boundary (`localStorage` plus the host
`JSON.parse`/`JSON.stringify`) is modelled by `StoredVal`.
-/

attribute [local semireducible] Rat.add Rat.sub Rat.mul Rat.inv Rat.ofScientific

/-- Game constants from the top of `game.ts`. -/
def CANVAS_WIDTH : ℚ := 800

/-- Canvas height constant. -/
def CANVAS_HEIGHT : ℚ := 600

/-- Player horizontal speed per tick. -/
def PLAYER_SPEED : ℚ := 5

/-- Bullet upward speed per tick. -/
def BULLET_SPEED : ℚ := 7

/-- Base speed of the normal alien formation. -/
def BASE_ALIEN_SPEED : ℚ := 1

/-- Base speed of the heavy alien formation. -/
def BASE_HEAVY_ALIEN_SPEED : ℚ := 2

/-- Vertical distance a formation drops when it hits a wall. -/
def ALIEN_DROP_DISTANCE : ℚ := 20

/-- The `GameState` enum of `game.ts`. -/
inductive GameState where
  | MENU
  | PLAYING
  | SCOREBOARD
  | CREDITS
  | GAME_OVER
  | LEVEL_TRANSITION
  | PAUSED
  | NAME_INPUT
deriving DecidableEq, Repr

/-- The `GameObject` interface: an axis-aligned rectangle (the `image`
field is presentation-only and omitted). -/
structure GameObject where
  x : ℚ
  y : ℚ
  width : ℚ
  height : ℚ
deriving DecidableEq, Repr

/-- The `Bullet` interface: a rectangle plus an `active` flag. -/
structure Bullet extends GameObject where
  active : Bool
deriving DecidableEq, Repr

/-- The `'normal' | 'heavy'` alien type tag. -/
inductive AlienType where
  | normal
  | heavy
deriving DecidableEq, Repr

/-- The `Alien` interface: rectangle, `active` flag, type tag and hit points. -/
structure Alien extends GameObject where
  active : Bool
  type : AlienType
  hp : Int
deriving DecidableEq, Repr

/-- A persisted leaderboard entry (`ScoreEntry` in `game.ts`). -/
structure ScoreEntry where
  name : String
  score : Int
deriving DecidableEq, Repr

/-- The per-tick snapshot of the held keys that `update` reads
(`keys['ArrowLeft']`, `keys['ArrowRight']`, `keys['Space']`). -/
structure Input where
  arrowLeft : Bool
  arrowRight : Bool
  space : Bool
deriving DecidableEq, Repr

/-- The content of the `space_invaders_scores` localStorage key.
`absent` models `getItem` returning `null`; `corrupt` models a stored
string that the host `JSON.parse` rejects; `entries l` models a stored
JSON encoding of the list `l`. -/
inductive StoredVal where
  | absent
  | corrupt
  | entries (l : List ScoreEntry)
deriving DecidableEq, Repr

/-- Models the host `JSON.parse` applied to
`localStorage.getItem('space_invaders_scores') || '[]'`: an absent key
falls back to the literal `'[]'` and parses to the empty list, a
well-formed stored encoding parses to its list, and a malformed stored
string makes `JSON.parse` throw a `SyntaxError` (modelled as `.error`). -/
def jsonParseStored : StoredVal → Except String (List ScoreEntry)
  | StoredVal.absent => Except.ok []
  | StoredVal.corrupt => Except.error "SyntaxError: Unexpected token"
  | StoredVal.entries l => Except.ok l

/-- The whole mutable global state of `game.ts` that the core reads or
writes, including the persisted leaderboard value (`store`). The
`SpaceLocked` pseudo-key that `update` stores into the key map is the
`spaceLocked` field. -/
structure GameWorld where
  currentState : GameState
  player : GameObject
  bullets : List Bullet
  aliens : List Alien
  heavyAliens : List Alien
  spaceLocked : Bool
  alienDirection : ℚ
  heavyAlienDirection : ℚ
  score : Int
  gameOver : Bool
  currentLevel : Int
  alienSpeed : ℚ
  heavyAlienSpeed : ℚ
  transitionTimer : ℚ
  playerName : String
  store : StoredVal
deriving DecidableEq, Repr

/-- The `rectIntersect` overlap test, negations kept as in the source:
`!(r2.x > r1.x + r1.width || r2.x + r2.width < r1.x || r2.y > r1.y + r1.height
|| r2.y + r2.height < r1.y)`. -/
def rectIntersect (r1 r2 : GameObject) : Bool :=
  !(decide (r1.x + r1.width < r2.x) || decide (r2.x + r2.width < r1.x) ||
    decide (r1.y + r1.height < r2.y) || decide (r2.y + r2.height < r1.y))

/-- The `// Player Movement` block: step left when ArrowLeft is held and
`x > 0`, then step right when ArrowRight is held and the (possibly already
moved) `x < CANVAS_WIDTH - width`. -/
def movePlayer (p : GameObject) (i : Input) : GameObject :=
  let x1 := if i.arrowLeft ∧ 0 < p.x then p.x - PLAYER_SPEED else p.x
  let x2 := if i.arrowRight ∧ x1 < CANVAS_WIDTH - p.width then x1 + PLAYER_SPEED else x1
  { p with x := x2 }

/-- The `// Shooting` block as a pure step: given the held state of Space
and the `SpaceLocked` debounce flag, return whether a bullet is spawned
and the new value of the flag. -/
def fireStep (space locked : Bool) : Bool × Bool :=
  let spawn := space && !locked
  let locked1 := if spawn then true else locked
  let locked2 := if !space then false else locked1
  (spawn, locked2)

/-- The bullet spawned at the player's horizontal center, top of the player. -/
def spawnBullet (p : GameObject) : Bullet :=
  { x := p.x + p.width / 2 - 2, y := p.y, width := 4, height := 10, active := true }

/-- The `// Update Bullets` block: move every bullet up by `BULLET_SPEED`,
deactivate those with `y < 0`, then compact the collection to the active ones. -/
def moveBullets (bs : List Bullet) : List Bullet :=
  (bs.map (fun b =>
    let b1 := { b with y := b.y - BULLET_SPEED }
    if b1.y < 0 then { b1 with active := false } else b1)).filter (fun b => b.active)

/-- The shift part of a formation update: every active member moves by
`speed * direction`; inactive members are skipped. -/
def shiftFormation (speed dir : ℚ) (as : List Alien) : List Alien :=
  as.map (fun a => if a.active then { a with x := a.x + speed * dir } else a)

/-- The `hitWall` test of a formation update, evaluated on the shifted
positions of the active members: `x <= 0 || x >= CANVAS_WIDTH - width`. -/
def formationHitWall (as : List Alien) : Bool :=
  as.any (fun a => a.active && (decide (a.x ≤ 0) || decide (CANVAS_WIDTH - a.width ≤ a.x)))

/-- One formation update (`// Update Normal Aliens` / `// Update Heavy
Aliens`): shift the active members, and when any active member ended on or
past a wall, drop every member (active or not) by `ALIEN_DROP_DISTANCE`
and negate the direction. Returns the new member list and direction. -/
def advanceFormation (speed dir : ℚ) (as : List Alien) : List Alien × ℚ :=
  let shifted := shiftFormation speed dir as
  if formationHitWall shifted then
    (shifted.map (fun a => { a with y := a.y + ALIEN_DROP_DISTANCE }), -dir)
  else
    (shifted, dir)

/-- Whether an alien passes the collision guard for a given bullet
rectangle: the alien is active and overlaps the bullet. -/
def bulletTargets (r : GameObject) (a : Alien) : Bool :=
  a.active && rectIntersect r a.toGameObject

/-- Result of running one bullet through one alien list. -/
structure HitRes where
  aliens : List Alien
  bullet : Bullet
  score : Int
deriving DecidableEq, Repr

/-- The `// Check Normal Aliens` inner loop for one bullet: on
`alien.active && bullet.active && rectIntersect(bullet, alien)` the alien
and the bullet are deactivated and the score increases by 10; the scan
continues with the updated bullet. -/
def hitNormals (b : Bullet) (s : Int) : List Alien → HitRes
  | [] => ⟨[], b, s⟩
  | a :: rest =>
    if a.active && b.active && rectIntersect b.toGameObject a.toGameObject then
      let r := hitNormals { b with active := false } (s + 10) rest
      ⟨{ a with active := false } :: r.aliens, r.bullet, r.score⟩
    else
      let r := hitNormals b s rest
      ⟨a :: r.aliens, r.bullet, r.score⟩

/-- The effect of one hit on a heavy alien (`alien.hp--` followed by the
`if (alien.hp <= 0) alien.active = false` check). -/
def damageHeavy (a : Alien) : Alien :=
  if a.hp - 1 ≤ 0 then { a with hp := a.hp - 1, active := false } else { a with hp := a.hp - 1 }

/-- The `// Check Heavy Aliens` inner loop for one bullet: on a hit the
alien's hp decrements and the bullet deactivates; when the new hp is ≤ 0
the alien also deactivates and the score increases by 50. -/
def hitHeavies (b : Bullet) (s : Int) : List Alien → HitRes
  | [] => ⟨[], b, s⟩
  | a :: rest =>
    if a.active && b.active && rectIntersect b.toGameObject a.toGameObject then
      let a1 := damageHeavy a
      let s1 := if a.hp - 1 ≤ 0 then s + 50 else s
      let r := hitHeavies { b with active := false } s1 rest
      ⟨a1 :: r.aliens, r.bullet, r.score⟩
    else
      let r := hitHeavies b s rest
      ⟨a :: r.aliens, r.bullet, r.score⟩

/-- Result of running one bullet through both alien lists. -/
structure BulletRes where
  aliens : List Alien
  heavyAliens : List Alien
  bullet : Bullet
  score : Int
deriving DecidableEq, Repr

/-- Processing of a single bullet in the `// Collision Detection` block:
first the normal alien scan, then the heavy alien scan with the bullet
state it left behind. -/
def processBullet (b : Bullet) (as hs : List Alien) (s : Int) : BulletRes :=
  let r1 := hitNormals b s as
  let r2 := hitHeavies r1.bullet r1.score hs
  ⟨r1.aliens, r2.aliens, r2.bullet, r2.score⟩

/-- The full `// Collision Detection` block: every bullet in order is run
through both alien lists, threading the updated alien lists and score. -/
def resolveCollisions : List Bullet → List Alien → List Alien → Int →
    List Bullet × List Alien × List Alien × Int
  | [], as, hs, s => ([], as, hs, s)
  | b :: rest, as, hs, s =>
    let r := processBullet b as hs s
    let rr := resolveCollisions rest r.aliens r.heavyAliens r.score
    (r.bullet :: rr.1, rr.2.1, rr.2.2.1, rr.2.2.2)

/-- Construction of the normal alien grid in `resetGame`, sized by level. -/
def mkNormalAliens (lvl : Int) : List Alien :=
  let normalRows := min (4 + (lvl - 1).fdiv 2) 6
  let normalCols := min (8 + (lvl - 1).fdiv 3) 10
  ((List.range normalRows.toNat).map (fun row =>
    (List.range normalCols.toNat).map (fun col =>
      ({ x := 80 + (col : ℚ) * 60, y := 80 + (row : ℚ) * 50, width := 40, height := 40,
         active := true, type := AlienType.normal, hp := 1 } : Alien)))).flatten

/-- Construction of the heavy alien boss row in `resetGame`, evenly spaced
across the canvas, with hp growing every 3 levels. -/
def mkHeavyAliens (lvl : Int) : List Alien :=
  let heavyCount := min (3 + (lvl - 1).fdiv 2) 6
  let heavySpacing : ℚ := CANVAS_WIDTH / ((heavyCount : ℚ) + 1)
  (List.range heavyCount.toNat).map (fun i =>
    ({ x := heavySpacing * ((i : ℚ) + 1) - 30, y := 20, width := 60, height := 60,
       active := true, type := AlienType.heavy, hp := 4 + (lvl - 1).fdiv 3 } : Alien))

/-- The `resetGame(startNewGame)` function: on a new game the level and
score reset; the speeds rescale from the level, the player returns to the
bottom center, bullets clear, both formations regenerate and both
directions reset to rightward. `playerName`, `currentState`,
`transitionTimer` and the persisted store are untouched. -/
def resetGame (w : GameWorld) (startNewGame : Bool) : GameWorld :=
  let lvl := if startNewGame then 1 else w.currentLevel
  let sc := if startNewGame then 0 else w.score
  { w with
    currentLevel := lvl
    score := sc
    alienSpeed := BASE_ALIEN_SPEED * (1 + ((lvl : ℚ) - 1) * (3 / 10))
    heavyAlienSpeed := BASE_HEAVY_ALIEN_SPEED * (1 + ((lvl : ℚ) - 1) * (3 / 10))
    player := { x := CANVAS_WIDTH / 2 - 20, y := CANVAS_HEIGHT - 60, width := 40, height := 40 }
    bullets := []
    aliens := mkNormalAliens lvl
    heavyAliens := mkHeavyAliens lvl
    gameOver := false
    alienDirection := 1
    heavyAlienDirection := 1 }

/-- The relation "descending by score" used by the `saveScore` comparator
`(a, b) => b.score - a.score`. -/
def scoreGe (a b : ScoreEntry) : Prop := b.score ≤ a.score

instance : DecidableRel scoreGe := fun a b => Int.decLe b.score a.score

instance : IsTotal ScoreEntry scoreGe := ⟨fun a b => le_total b.score a.score⟩

instance : IsTrans ScoreEntry scoreGe := ⟨fun _ _ _ h1 h2 => le_trans h2 h1⟩

/-- Model of `scores.sort((a, b) => b.score - a.score)`: a comparison sort
by descending score. -/
def sortDesc (l : List ScoreEntry) : List ScoreEntry := List.insertionSort scoreGe l

/-- The `saveScore(name, score)` function: parse the stored leaderboard
(with the `|| '[]'` fallback for an absent key; a malformed value makes
`JSON.parse` throw), push the new entry, sort descending by score, keep
the top 5, and persist the result. -/
def saveScore (name : String) (score : Int) (st : StoredVal) : Except String StoredVal := do
  let scores ← jsonParseStored st
  let scores := scores ++ [{ name := name, score := score }]
  let scores := sortDesc scores
  let scores := scores.take 5
  return StoredVal.entries scores

/-- The `getHighScores()` function: parse the stored leaderboard with the
`|| '[]'` fallback; there is no catch, so a malformed value propagates
`JSON.parse`'s error. -/
def getHighScores (st : StoredVal) : Except String (List ScoreEntry) :=
  jsonParseStored st

/-- The pure part of a PLAYING tick before the game-over and
level-complete checks: player movement, firing, bullet advance, both
formation advances, and collision resolution, in source order. -/
def simulate (w : GameWorld) (i : Input) : GameWorld :=
  let p := movePlayer w.player i
  let fr := fireStep i.space w.spaceLocked
  let bs0 := if fr.1 then w.bullets ++ [spawnBullet p] else w.bullets
  let bs1 := moveBullets bs0
  let fa := advanceFormation w.alienSpeed w.alienDirection w.aliens
  let fh := advanceFormation w.heavyAlienSpeed w.heavyAlienDirection w.heavyAliens
  let rc := resolveCollisions bs1 fa.1 fh.1 w.score
  { w with
    player := p
    spaceLocked := fr.2
    bullets := rc.1
    aliens := rc.2.1
    heavyAliens := rc.2.2.1
    score := rc.2.2.2
    alienDirection := fa.2
    heavyAlienDirection := fh.2 }

/-- The `// Game Over Check` condition: some active alien of either
formation has `y + height >= player.y`. -/
def gameOverCond (w : GameWorld) : Bool :=
  w.aliens.any (fun a => a.active && decide (w.player.y ≤ a.y + a.height)) ||
  w.heavyAliens.any (fun a => a.active && decide (w.player.y ≤ a.y + a.height))

/-- The `// Level Complete Check` condition: every alien of both
formations is inactive. -/
def levelCompleteCond (w : GameWorld) : Bool :=
  w.aliens.all (fun a => !a.active) && w.heavyAliens.all (fun a => !a.active)

/-- The `update(deltaTime)` function. In LEVEL_TRANSITION the timer
accumulates and, strictly past 3000ms, the level increments, the game
resets with `startNewGame = false` and play resumes. Any other
non-PLAYING state returns unchanged. A set `gameOver` flag transitions to
GAME_OVER. Otherwise the simulation phases run; when the game-over
condition holds the score is persisted via `saveScore` (whose `JSON.parse`
error, if any, propagates) and the flag is set; when the level-complete
condition holds the state becomes LEVEL_TRANSITION with a zeroed timer. -/
def update (w : GameWorld) (i : Input) (dt : ℚ) : Except String GameWorld :=
  if w.currentState = GameState.LEVEL_TRANSITION then
    let t := w.transitionTimer + dt
    if 3000 < t then
      let w1 := resetGame { w with transitionTimer := 0, currentLevel := w.currentLevel + 1 } false
      Except.ok { w1 with currentState := GameState.PLAYING }
    else
      Except.ok { w with transitionTimer := t }
  else if w.currentState ≠ GameState.PLAYING then
    Except.ok w
  else if w.gameOver then
    Except.ok { w with currentState := GameState.GAME_OVER }
  else
    let w1 := simulate w i
    let go := gameOverCond w1
    match (if go then saveScore w1.playerName w1.score w1.store else Except.ok w1.store) with
    | Except.error e => Except.error e
    | Except.ok st =>
      let w2 := { w1 with gameOver := go, store := st }
      Except.ok (if levelCompleteCond w2 then
        { w2 with currentState := GameState.LEVEL_TRANSITION, transitionTimer := 0 }
      else w2)

/-- Iterated ticks of `update` over a trace of input snapshots and frame
deltas; an error from any tick propagates. -/
def run (w : GameWorld) : List (Input × ℚ) → Except String GameWorld
  | [] => Except.ok w
  | (i, dt) :: rest =>
    match update w i dt with
    | Except.ok w1 => run w1 rest
    | Except.error e => Except.error e

/-- Iterated `saveScore` calls over a list of (name, score) pairs. -/
def runSaves : List (String × Int) → StoredVal → Except String StoredVal
  | [], st => Except.ok st
  | (n, sc) :: rest, st =>
    match saveScore n sc st with
    | Except.ok st1 => runSaves rest st1
    | Except.error e => Except.error e

/-! ### Generic helpers -/

instance {ε α : Type} [DecidableEq ε] [DecidableEq α] : DecidableEq (Except ε α) := fun a b =>
  match a, b with
  | Except.ok x, Except.ok y =>
    match decEq x y with
    | isTrue h => isTrue (by rw [h])
    | isFalse h => isFalse (fun hh => h (Except.ok.inj hh))
  | Except.error x, Except.error y =>
    match decEq x y with
    | isTrue h => isTrue (by rw [h])
    | isFalse h => isFalse (fun hh => h (Except.error.inj hh))
  | Except.ok _, Except.error _ => isFalse (fun hh => Except.noConfusion hh)
  | Except.error _, Except.ok _ => isFalse (fun hh => Except.noConfusion hh)

/-- A concrete session world in the PLAYING state, used to instantiate the
general theorems: one active normal alien one step short of the right
wall, one inactive normal alien, no heavies, no bullets. -/
def sampleWorld : GameWorld :=
  { currentState := GameState.PLAYING
    player := { x := 380, y := 540, width := 40, height := 40 }
    bullets := []
    aliens := [{ x := 760, y := 100, width := 40, height := 40, active := true,
                 type := AlienType.normal, hp := 1 },
               { x := 200, y := 100, width := 40, height := 40, active := false,
                 type := AlienType.normal, hp := 1 }]
    heavyAliens := []
    spaceLocked := false
    alienDirection := 1
    heavyAlienDirection := 1
    score := 0
    gameOver := false
    currentLevel := 1
    alienSpeed := 1
    heavyAlienSpeed := 2
    transitionTimer := 0
    playerName := "AB"
    store := StoredVal.absent }

/-- The idle input snapshot: no key held. -/
def idleInput : Input := { arrowLeft := false, arrowRight := false, space := false }

/-- Count of bullets spawned by the `// Shooting` block over a sequence of
per-tick held states of the fire key, starting from a given debounce-flag
state: the fold of `fireStep` that counts its spawn outputs. -/
def spawnCount (locked : Bool) : List Bool → Nat
  | [] => 0
  | s :: rest =>
    let f := fireStep s locked
    (if f.1 then 1 else 0) + spawnCount f.2 rest

/-- The player-rectangle invariant maintained by the game: fixed width 40,
x within the canvas, and x a multiple of the 5-pixel step (the player
starts at 380 and only ever moves in ±5 steps). -/
def PlayerInv (w : GameWorld) : Prop :=
  w.player.width = 40 ∧ 0 ≤ w.player.x ∧ w.player.x ≤ CANVAS_WIDTH - w.player.width ∧
    ∃ k : ℤ, w.player.x = 5 * k

/-- The sample world parked in the LEVEL_TRANSITION state. -/
def sampleTransitionWorld : GameWorld :=
  { sampleWorld with currentState := GameState.LEVEL_TRANSITION }

/-- A PLAYING world whose single active alien is about to reach the
player's row, triggering the game-over condition on the next tick. -/
def gameOverWorld : GameWorld :=
  { sampleWorld with
    aliens := [{ x := 300, y := 510, width := 40, height := 40, active := true,
                 type := AlienType.normal, hp := 1 }] }

/-- A concrete active bullet overlapping `sampleAlien`. -/
def sampleBullet : Bullet :=
  { x := 100, y := 100, width := 4, height := 10, active := true }

/-- A concrete active normal alien overlapping `sampleBullet`. -/
def sampleAlien : Alien :=
  { x := 90, y := 95, width := 40, height := 40, active := true,
    type := AlienType.normal, hp := 1 }

/-- A concrete active heavy alien with 2 hp overlapping `sampleBullet`. -/
def sampleHeavy : Alien :=
  { x := 90, y := 95, width := 60, height := 60, active := true,
    type := AlienType.heavy, hp := 2 }

/-! ### Theorems -/

/-- Claim C3 counterexample: with a malformed stored value,
`getHighScores` does not return a list at all — the `JSON.parse` error
propagates, refuting "never throws ... on malformed storage it returns
the empty list". -/
theorem getHighScores_corrupt_throws :
    getHighScores StoredVal.corrupt = Except.error "SyntaxError: Unexpected token" := rfl

/-- Claim C3 (amended): `getHighScores` returns the empty list when the
key is absent and the persisted list when it is well-formed; but on a
malformed stored value the `JSON.parse` exception propagates (there is no
catch), so no list is returned. -/
theorem getHighScores_spec :
    getHighScores StoredVal.absent = Except.ok [] ∧
    (∀ l, getHighScores (StoredVal.entries l) = Except.ok l) ∧
    (getHighScores StoredVal.corrupt).toOption = none :=
  ⟨rfl, fun _ => rfl, rfl⟩

/-- Claim C5: the firing debounce. A PLAYING tick's shooting block is
`fireStep` (the simulation stores its flag output back into the world);
starting from an unlocked flag — which is exactly the state after any tick
in which the fire key was not held — a run of consecutive held ticks
spawns exactly one bullet, and with the flag locked — as it is right after
a spawn — further held ticks spawn none, so a second bullet requires an
intervening not-held tick. -/
theorem fire_debounce :
    (∀ (w : GameWorld) (i : Input), (simulate w i).spaceLocked = (fireStep i.space w.spaceLocked).2) ∧
    (∀ (locked : Bool), (fireStep false locked).2 = false) ∧
    (∀ n : Nat, 1 ≤ n → spawnCount false (List.replicate n true) = 1) ∧
    (∀ m : Nat, spawnCount true (List.replicate m true) = 0) := by
  have hlock : ∀ m : Nat, spawnCount true (List.replicate m true) = 0 := by
    intro m
    induction m with
    | zero => rfl
    | succ m ih => simpa [List.replicate_succ, spawnCount, fireStep] using ih
  refine ⟨fun w i => rfl, fun locked => rfl, ?_, hlock⟩
  intro n hn
  obtain ⟨m, rfl⟩ := Nat.exists_eq_add_of_le hn
  simpa [List.replicate_succ, List.replicate_add, spawnCount, fireStep] using hlock m

/-- Claim C5 witness: three consecutive held ticks from the unlocked state
spawn exactly one bullet. -/
theorem fire_debounce_witness :
    1 ≤ 3 ∧ spawnCount false (List.replicate 3 true) = 1 :=
  ⟨by norm_num, fire_debounce.2.2.1 3 (by norm_num)⟩

/-- Claim C7 counterexample: in LEVEL_TRANSITION with the accumulated
timer reaching exactly 3000ms, the code's strict `> 3000` test fails, so
the tick leaves the state in LEVEL_TRANSITION with the level unchanged —
refuting "as soon as the accumulated time is ≥ 3000ms". -/
theorem levelTransition_at_exactly_3000 :
    update sampleTransitionWorld idleInput 3000 =
      Except.ok { sampleTransitionWorld with transitionTimer := 3000 } ∧
    ({ sampleTransitionWorld with transitionTimer := 3000 } : GameWorld).currentState =
      GameState.LEVEL_TRANSITION ∧
    ({ sampleTransitionWorld with transitionTimer := 3000 } : GameWorld).currentLevel =
      sampleTransitionWorld.currentLevel := by
  refine ⟨?_, rfl, rfl⟩
  decide

/-- Claim C7 (amended): in LEVEL_TRANSITION the timer accumulates the
elapsed dt each tick, and as soon as the accumulated time exceeds 3000ms
(strictly greater, not ≥), the level increments by 1, the formation is
regenerated scaled to the new level, the cumulative score is kept, the
timer resets to 0 and the state becomes PLAYING; at 3000ms or below the
tick only accumulates the timer. -/
theorem levelTransition_spec :
    ∀ (w : GameWorld) (i : Input) (dt : ℚ), w.currentState = GameState.LEVEL_TRANSITION →
    (3000 < w.transitionTimer + dt →
      update w i dt = Except.ok
        { resetGame { w with transitionTimer := 0, currentLevel := w.currentLevel + 1 } false with
            currentState := GameState.PLAYING } ∧
      ({ resetGame { w with transitionTimer := 0, currentLevel := w.currentLevel + 1 } false with
            currentState := GameState.PLAYING } : GameWorld).currentLevel = w.currentLevel + 1 ∧
      ({ resetGame { w with transitionTimer := 0, currentLevel := w.currentLevel + 1 } false with
            currentState := GameState.PLAYING } : GameWorld).score = w.score ∧
      ({ resetGame { w with transitionTimer := 0, currentLevel := w.currentLevel + 1 } false with
            currentState := GameState.PLAYING } : GameWorld).transitionTimer = 0 ∧
      ({ resetGame { w with transitionTimer := 0, currentLevel := w.currentLevel + 1 } false with
            currentState := GameState.PLAYING } : GameWorld).aliens =
        mkNormalAliens (w.currentLevel + 1) ∧
      ({ resetGame { w with transitionTimer := 0, currentLevel := w.currentLevel + 1 } false with
            currentState := GameState.PLAYING } : GameWorld).heavyAliens =
        mkHeavyAliens (w.currentLevel + 1)) ∧
    (w.transitionTimer + dt ≤ 3000 →
      update w i dt = Except.ok { w with transitionTimer := w.transitionTimer + dt }) := by
  intro w i dt hst
  constructor
  · intro hgt
    refine ⟨?_, rfl, rfl, rfl, rfl, rfl⟩
    simp [update, hst, hgt]
  · intro hle
    simp [update, hst, not_lt.mpr hle]

/-- Claim C7 witness: a transition tick that crosses the 3000ms threshold
completes the transition into PLAYING at the next level. -/
theorem levelTransition_spec_witness :
    update sampleTransitionWorld idleInput 3001 =
      Except.ok
        { resetGame
            { sampleTransitionWorld with
                transitionTimer := 0
                currentLevel := sampleTransitionWorld.currentLevel + 1 } false with
            currentState := GameState.PLAYING } :=
  ((levelTransition_spec sampleTransitionWorld idleInput 3001 rfl).1 (by norm_num [sampleTransitionWorld, sampleWorld])).1

/-- Claim C10: completing a level transition (the regeneration with
`startNewGame = false`) empties the bullet collection, resets the player
to the bottom center of the canvas, resets both formation directions to
rightward (+1), and leaves the player name unchanged. -/
theorem levelTransition_reset_effects :
    ∀ (w : GameWorld) (i : Input) (dt : ℚ),
    w.currentState = GameState.LEVEL_TRANSITION → 3000 < w.transitionTimer + dt →
    ∃ w1, update w i dt = Except.ok w1 ∧
      w1.bullets = [] ∧
      w1.player = { x := CANVAS_WIDTH / 2 - 20, y := CANVAS_HEIGHT - 60, width := 40, height := 40 } ∧
      w1.alienDirection = 1 ∧
      w1.heavyAlienDirection = 1 ∧
      w1.playerName = w.playerName ∧
      w1.currentState = GameState.PLAYING := by
  intro w i dt hst hgt
  refine ⟨_, ((levelTransition_spec w i dt hst).1 hgt).1, rfl, rfl, rfl, rfl, rfl, rfl⟩

/-- Claim C10 witness: the sample transition world, on a
threshold-crossing tick, produces a PLAYING world with no bullets, the
player re-centered, both directions rightward and the name kept. -/
theorem levelTransition_reset_effects_witness :
    ∃ w1, update sampleTransitionWorld idleInput 3001 = Except.ok w1 ∧
      w1.bullets = [] ∧
      w1.player = { x := CANVAS_WIDTH / 2 - 20, y := CANVAS_HEIGHT - 60, width := 40, height := 40 } ∧
      w1.alienDirection = 1 ∧
      w1.heavyAlienDirection = 1 ∧
      w1.playerName = sampleTransitionWorld.playerName ∧
      w1.currentState = GameState.PLAYING :=
  levelTransition_reset_effects sampleTransitionWorld idleInput 3001 rfl
    (by norm_num [sampleTransitionWorld, sampleWorld])

/-- The sort step of `saveScore` produces a list sorted non-increasing by
score. -/
theorem sortDesc_sorted (l : List ScoreEntry) : List.Pairwise scoreGe (sortDesc l) :=
  List.sorted_insertionSort scoreGe l

/-- A sorted-and-truncated board: at most 5 entries, non-increasing by
score. -/
theorem board_good (l : List ScoreEntry) :
    ((sortDesc l).take 5).length ≤ 5 ∧ List.Pairwise scoreGe ((sortDesc l).take 5) := by
  constructor
  · simp [List.length_take]
  · exact List.Pairwise.sublist (List.take_sublist 5 (sortDesc l)) (sortDesc_sorted l)

/-- `saveScore` on a parseable store always succeeds with a sorted
truncated entries value. -/
theorem saveScore_ok (n : String) (sc : Int) (st : StoredVal)
    (hst : st = StoredVal.absent ∨ ∃ l, st = StoredVal.entries l) :
    ∃ l1, saveScore n sc st = Except.ok (StoredVal.entries l1) ∧
      l1.length ≤ 5 ∧ List.Pairwise scoreGe l1 := by
  rcases hst with rfl | ⟨l, rfl⟩
  · refine ⟨(sortDesc [{ name := n, score := sc }]).take 5, ?_, board_good _⟩
    rfl
  · refine ⟨(sortDesc (l ++ [{ name := n, score := sc }])).take 5, ?_, board_good _⟩
    rfl

/-- Claim C8: each `saveScore` call appends the new entry to the parsed
board, sorts it descending by score, truncates to the top 5 and persists;
consequently after any nonempty sequence of calls starting from an absent
or well-formed store, the persisted board has at most 5 entries and is
sorted non-increasing by score. -/
theorem leaderboard_invariant :
    (∀ (n : String) (sc : Int) (l : List ScoreEntry),
      saveScore n sc (StoredVal.entries l) =
        Except.ok (StoredVal.entries ((sortDesc (l ++ [{ name := n, score := sc }])).take 5))) ∧
    (∀ (n : String) (sc : Int),
      saveScore n sc StoredVal.absent =
        Except.ok (StoredVal.entries ((sortDesc [{ name := n, score := sc }]).take 5))) ∧
    (∀ (calls : List (String × Int)) (s0 sN : StoredVal),
      (s0 = StoredVal.absent ∨ ∃ l, s0 = StoredVal.entries l) → calls ≠ [] →
      runSaves calls s0 = Except.ok sN →
      ∃ l, sN = StoredVal.entries l ∧ l.length ≤ 5 ∧ List.Pairwise scoreGe l) := by
  have aux : ∀ (calls : List (String × Int)) (l0 : List ScoreEntry) (sN : StoredVal),
      l0.length ≤ 5 → List.Pairwise scoreGe l0 →
      runSaves calls (StoredVal.entries l0) = Except.ok sN →
      ∃ l, sN = StoredVal.entries l ∧ l.length ≤ 5 ∧ List.Pairwise scoreGe l := by
    intro calls
    induction calls with
    | nil =>
      intro l0 sN hlen hsort hrun
      exact ⟨l0, (Except.ok.inj hrun).symm, hlen, hsort⟩
    | cons c rest ih =>
      intro l0 sN _ _ hrun
      obtain ⟨l1, heq, hlen1, hsort1⟩ :=
        saveScore_ok c.1 c.2 (StoredVal.entries l0) (Or.inr ⟨l0, rfl⟩)
      rw [runSaves] at hrun
      rw [heq] at hrun
      exact ih l1 sN hlen1 hsort1 hrun
  refine ⟨fun n sc l => rfl, fun n sc => rfl, ?_⟩
  intro calls s0 sN hs0 hne hrun
  rcases calls with _ | ⟨c, rest⟩
  · exact absurd rfl hne
  · obtain ⟨l1, heq, hlen1, hsort1⟩ := saveScore_ok c.1 c.2 s0 hs0
    rw [runSaves] at hrun
    rw [heq] at hrun
    exact aux rest l1 sN hlen1 hsort1 hrun

/-- Claim C8 witness: six concrete saves starting from an absent store end
with the top five scores in non-increasing order. -/
theorem leaderboard_invariant_witness :
    ∃ l, StoredVal.entries [{ name := "D", score := 9 }, { name := "B", score := 7 },
        { name := "E", score := 5 }, { name := "C", score := 3 }, { name := "F", score := 2 }] =
      StoredVal.entries l ∧ l.length ≤ 5 ∧ List.Pairwise scoreGe l :=
  leaderboard_invariant.2.2 [("A", 1), ("B", 7), ("C", 3), ("D", 9), ("E", 5), ("F", 2)]
    StoredVal.absent _ (Or.inl rfl) (by decide) (by decide)

/-- Unfolding of `advanceFormation` on a wall-hit tick. -/
theorem advanceFormation_pos (speed dir : ℚ) (as : List Alien)
    (hw : formationHitWall (shiftFormation speed dir as) = true) :
    advanceFormation speed dir as =
      ((shiftFormation speed dir as).map (fun a => { a with y := a.y + ALIEN_DROP_DISTANCE }),
        -dir) := by
  simp [advanceFormation, hw]

/-- Unfolding of `advanceFormation` on a tick with no wall hit. -/
theorem advanceFormation_neg (speed dir : ℚ) (as : List Alien)
    (hw : formationHitWall (shiftFormation speed dir as) = false) :
    advanceFormation speed dir as = (shiftFormation speed dir as, dir) := by
  simp [advanceFormation, hw]

/-- Elementwise description of the shift stage. -/
theorem shiftFormation_getElem (speed dir : ℚ) (as : List Alien) (i : Nat)
    (hi : i < as.length) :
    (shiftFormation speed dir as)[i]? =
      some (if as[i].active then { as[i] with x := as[i].x + speed * dir } else as[i]) := by
  simp [shiftFormation, List.getElem?_map, List.getElem?_eq_getElem hi]

/-- Claim C4: in a formation advance, every active member is shifted by
`speed × direction`; and whenever some active member ends the shift at
`x ≤ 0` or `x ≥ canvasWidth − width`, on that same tick the formation’s
direction is negated and every member — active or not — has its `y`
increased by exactly `ALIEN_DROP_DISTANCE = 20`. -/
theorem formation_advance_spec :
    ∀ (speed dir : ℚ) (as : List Alien),
    (advanceFormation speed dir as).1.length = as.length ∧
    (∀ i (hi : i < as.length), as[i].active = true →
      ∃ a1, (advanceFormation speed dir as).1[i]? = some a1 ∧
        a1.x = as[i].x + speed * dir) ∧
    ((∃ i, ∃ hi : i < as.length, as[i].active = true ∧
        (as[i].x + speed * dir ≤ 0 ∨ CANVAS_WIDTH - as[i].width ≤ as[i].x + speed * dir)) →
      (advanceFormation speed dir as).2 = -dir ∧
      ∀ i (hi : i < as.length),
        ∃ a1, (advanceFormation speed dir as).1[i]? = some a1 ∧
          a1.y = as[i].y + ALIEN_DROP_DISTANCE) := by
  intro speed dir as
  by_cases hw : formationHitWall (shiftFormation speed dir as) = true
  · rw [advanceFormation_pos speed dir as hw]
    refine ⟨by simp [shiftFormation], ?_, ?_⟩
    · intro i hi hact
      exact ⟨{ as[i] with x := as[i].x + speed * dir, y := as[i].y + ALIEN_DROP_DISTANCE },
        by simp [List.getElem?_map, shiftFormation_getElem speed dir as i hi, hact], rfl⟩
    · intro _
      refine ⟨rfl, ?_⟩
      intro i hi
      by_cases hact : as[i].active = true
      · exact ⟨{ as[i] with x := as[i].x + speed * dir, y := as[i].y + ALIEN_DROP_DISTANCE },
          by simp [List.getElem?_map, shiftFormation_getElem speed dir as i hi, hact], rfl⟩
      · exact ⟨{ as[i] with y := as[i].y + ALIEN_DROP_DISTANCE },
          by simp [List.getElem?_map, shiftFormation_getElem speed dir as i hi, hact], rfl⟩
  · rw [Bool.not_eq_true] at hw
    rw [advanceFormation_neg speed dir as hw]
    refine ⟨by simp [shiftFormation], ?_, ?_⟩
    · intro i hi hact
      exact ⟨{ as[i] with x := as[i].x + speed * dir },
        by simp [shiftFormation_getElem speed dir as i hi, hact], rfl⟩
    · rintro ⟨i, hi, hact, hcond⟩
      exfalso
      rw [← Bool.not_eq_true] at hw
      apply hw
      apply List.any_eq_true.mpr
      refine ⟨{ as[i] with x := as[i].x + speed * dir }, ?_, ?_⟩
      · exact List.mem_map.mpr ⟨as[i], List.getElem_mem hi, by simp [hact]⟩
      · simp only [Bool.and_eq_true, Bool.or_eq_true, decide_eq_true_eq]
        exact ⟨hact, hcond⟩

/-- Claim C4 witness: a one-member formation at `x = 5` moving left with
speed 5 ends at the wall; the direction flips to `+1` and the member drops
by 20. -/
theorem formation_advance_spec_witness :
    (advanceFormation 5 (-1) [{ sampleAlien with x := 5 }]).2 = -(-1) ∧
    ∃ a1, (advanceFormation 5 (-1) [{ sampleAlien with x := 5 }]).1[0]? = some a1 ∧
      a1.y = ({ sampleAlien with x := 5 } : Alien).y + ALIEN_DROP_DISTANCE := by
  have h := (formation_advance_spec 5 (-1) [{ sampleAlien with x := 5 }]).2.2
    ⟨0, by decide, rfl, Or.inl (by decide)⟩
  exact ⟨h.1, h.2 0 (by decide)⟩

/-- An inactive bullet passes through the normal-alien scan untouched and
touches nothing. -/
theorem hitNormals_inactiveBullet (b : Bullet) (s : Int) (as : List Alien)
    (hb : b.active = false) : hitNormals b s as = ⟨as, b, s⟩ := by
  induction as with
  | nil => rfl
  | cons a rest ih => simp [hitNormals, hb, ih]

/-- An inactive bullet passes through the heavy-alien scan untouched and
touches nothing. -/
theorem hitHeavies_inactiveBullet (b : Bullet) (s : Int) (hs : List Alien)
    (hb : b.active = false) : hitHeavies b s hs = ⟨hs, b, s⟩ := by
  induction hs with
  | nil => rfl
  | cons a rest ih => simp [hitHeavies, hb, ih]

/-- The normal-alien collision scan never modifies an inactive alien. -/
theorem hitNormals_inactive_alien (b : Bullet) (s : Int) (as : List Alien) (i : Nat)
    (hi : i < as.length) (h : as[i].active = false) :
    (hitNormals b s as).aliens[i]? = some as[i] := by
  induction as generalizing b s i with
  | nil => exact absurd hi (by simp)
  | cons a rest ih =>
    cases i with
    | zero =>
      have ha : a.active = false := h
      simp [hitNormals, ha]
    | succ i1 =>
      have hi1 : i1 < rest.length := Nat.lt_of_succ_lt_succ hi
      have h1 : rest[i1].active = false := h
      by_cases hg : (a.active && b.active && rectIntersect b.toGameObject a.toGameObject) = true
      · simp [hitNormals, hg, ih _ _ _ hi1 h1]
      · rw [Bool.not_eq_true] at hg
        simp [hitNormals, hg, ih _ _ _ hi1 h1]

/-- The heavy-alien collision scan never modifies an inactive alien. -/
theorem hitHeavies_inactive_alien (b : Bullet) (s : Int) (hs : List Alien) (i : Nat)
    (hi : i < hs.length) (h : hs[i].active = false) :
    (hitHeavies b s hs).aliens[i]? = some hs[i] := by
  induction hs generalizing b s i with
  | nil => exact absurd hi (by simp)
  | cons a rest ih =>
    cases i with
    | zero =>
      have ha : a.active = false := h
      simp [hitHeavies, ha]
    | succ i1 =>
      have hi1 : i1 < rest.length := Nat.lt_of_succ_lt_succ hi
      have h1 : rest[i1].active = false := h
      by_cases hg : (a.active && b.active && rectIntersect b.toGameObject a.toGameObject) = true
      · simp [hitHeavies, hg, ih _ _ _ hi1 h1]
      · rw [Bool.not_eq_true] at hg
        simp [hitHeavies, hg, ih _ _ _ hi1 h1]

/-- An inactive bullet takes no part in collision resolution at all. -/
theorem processBullet_inactiveBullet (b : Bullet) (as hs : List Alien) (s : Int)
    (hb : b.active = false) : processBullet b as hs s = ⟨as, hs, b, s⟩ := by
  simp [processBullet, hitNormals_inactiveBullet b s as hb, hitHeavies_inactiveBullet b s hs hb]

/-- The bullet phase purges inactive bullets: every bullet left in the
collection afterwards is active. -/
theorem moveBullets_active (bs : List Bullet) : ∀ b1 ∈ moveBullets bs, b1.active = true :=
  fun _ hb1 => (List.mem_filter.mp hb1).2

/-- Claim C9 counterexample: a full PLAYING tick of `sampleWorld` (whose
active alien reaches the right wall) increases the `y` of the inactive
alien from 100 to 120, refuting "positions of `active=false` aliens are
unchanged by movement". -/
theorem inactive_alien_moved_cex :
    (update sampleWorld idleInput 16).toOption.map
        (fun w => w.aliens.map (fun a => (a.active, a.x, a.y))) =
      some [(true, 761, 120), (false, 200, 120)] ∧
    (sampleWorld.aliens.map (fun a => (a.active, a.x, a.y)))[1]? = some (false, 200, 100) := by
  constructor <;> decide

/-- Claim C9 (amended): inactive aliens and bullets take part in no
collision check (an inactive alien is never modified by a bullet scan and
an inactive bullet hits nothing), inactive bullets are purged by the
bullet phase, and inactive aliens receive no horizontal shift; however,
when their formation hits a wall, every member including the inactive ones
has its `y` increased by 20 on that tick (otherwise inactive aliens are
completely unchanged). -/
theorem inactive_entities_inert :
    (∀ (b : Bullet) (s : Int) (as : List Alien) (i : Nat) (hi : i < as.length),
      as[i].active = false → (hitNormals b s as).aliens[i]? = some as[i]) ∧
    (∀ (b : Bullet) (s : Int) (hs : List Alien) (i : Nat) (hi : i < hs.length),
      hs[i].active = false → (hitHeavies b s hs).aliens[i]? = some hs[i]) ∧
    (∀ (b : Bullet) (as hs : List Alien) (s : Int), b.active = false →
      processBullet b as hs s = ⟨as, hs, b, s⟩) ∧
    (∀ (bs : List Bullet), ∀ b1 ∈ moveBullets bs, b1.active = true) ∧
    (∀ (speed dir : ℚ) (as : List Alien) (i : Nat) (hi : i < as.length),
      as[i].active = false →
      (shiftFormation speed dir as)[i]? = some as[i] ∧
      (formationHitWall (shiftFormation speed dir as) = true →
        (advanceFormation speed dir as).1[i]? =
          some { as[i] with y := as[i].y + ALIEN_DROP_DISTANCE }) ∧
      (formationHitWall (shiftFormation speed dir as) = false →
        (advanceFormation speed dir as).1[i]? = some as[i])) := by
  refine ⟨hitNormals_inactive_alien, hitHeavies_inactive_alien, processBullet_inactiveBullet,
    moveBullets_active, ?_⟩
  intro speed dir as i hi hact
  have hget : (shiftFormation speed dir as)[i]? = some as[i] := by
    simp [shiftFormation_getElem speed dir as i hi, hact]
  refine ⟨hget, ?_, ?_⟩
  · intro hw
    rw [advanceFormation_pos speed dir as hw]
    simp [List.getElem?_map, shiftFormation_getElem speed dir as i hi, hact]
  · intro hw
    rw [advanceFormation_neg speed dir as hw]
    exact hget

/-- Claim C9 witness: amended-theorem instance on `sampleWorld`'s
formation: the inactive alien is untouched by the shift but dropped by 20
on the wall-hit tick. -/
theorem inactive_entities_inert_witness :
    (shiftFormation 1 1 sampleWorld.aliens)[1]? = some sampleWorld.aliens[1] ∧
    (advanceFormation 1 1 sampleWorld.aliens).1[1]? =
      some { sampleWorld.aliens[1] with y := sampleWorld.aliens[1].y + ALIEN_DROP_DISTANCE } := by
  have h := inactive_entities_inert.2.2.2.2 1 1 sampleWorld.aliens 1 (by decide) (by decide)
  exact ⟨h.1, h.2.1 (by decide)⟩

/-- A bullet with no target in a normal-alien list passes through it
untouched. -/
theorem hitNormals_noTarget (b : Bullet) (s : Int) (as : List Alien)
    (h : as.any (bulletTargets b.toGameObject) = false) : hitNormals b s as = ⟨as, b, s⟩ := by
  induction as with
  | nil => rfl
  | cons a rest ih =>
    rw [List.any_cons, Bool.or_eq_false_iff] at h
    have hg : (a.active && b.active && rectIntersect b.toGameObject a.toGameObject) = false := by
      cases hba : b.active <;> cases haa : a.active <;> simp_all [bulletTargets]
    simp [hitNormals, hg, ih h.2]

/-- A bullet with no target in a heavy-alien list passes through it
untouched. -/
theorem hitHeavies_noTarget (b : Bullet) (s : Int) (hs : List Alien)
    (h : hs.any (bulletTargets b.toGameObject) = false) : hitHeavies b s hs = ⟨hs, b, s⟩ := by
  induction hs with
  | nil => rfl
  | cons a rest ih =>
    rw [List.any_cons, Bool.or_eq_false_iff] at h
    have hg : (a.active && b.active && rectIntersect b.toGameObject a.toGameObject) = false := by
      cases hba : b.active <;> cases haa : a.active <;> simp_all [bulletTargets]
    simp [hitHeavies, hg, ih h.2]

/-- `hitNormals` on an already-deactivated bullet, stated as a rewrite
rule. -/
theorem hitNormals_deactivated (b : Bullet) (s : Int) (as : List Alien) :
    hitNormals { b with active := false } s as = ⟨as, { b with active := false }, s⟩ :=
  hitNormals_inactiveBullet _ _ _ rfl

/-- `hitHeavies` on an already-deactivated bullet, stated as a rewrite
rule. -/
theorem hitHeavies_deactivated (b : Bullet) (s : Int) (hs : List Alien) :
    hitHeavies { b with active := false } s hs = ⟨hs, { b with active := false }, s⟩ :=
  hitHeavies_inactiveBullet _ _ _ rfl

/-- The normal-alien scan only ever changes the bullet's `active` flag,
never its rectangle. -/
theorem hitNormals_bullet_rect (b : Bullet) (s : Int) (as : List Alien) :
    (hitNormals b s as).bullet.toGameObject = b.toGameObject := by
  induction as generalizing b s with
  | nil => rfl
  | cons a rest ih =>
    by_cases haa : a.active = true <;> cases hb : b.active <;>
      by_cases hint : rectIntersect b.toGameObject a.toGameObject = true <;>
      simp_all [hitNormals, hitNormals_deactivated]

/-- The heavy-alien scan only ever changes the bullet's `active` flag,
never its rectangle. -/
theorem hitHeavies_bullet_rect (b : Bullet) (s : Int) (hs : List Alien) :
    (hitHeavies b s hs).bullet.toGameObject = b.toGameObject := by
  induction hs generalizing b s with
  | nil => rfl
  | cons a rest ih =>
    by_cases haa : a.active = true <;> cases hb : b.active <;>
      by_cases hint : rectIntersect b.toGameObject a.toGameObject = true <;>
      simp_all [hitHeavies, hitHeavies_deactivated]

/-- The bullet leaves the normal-alien scan active exactly when it entered
active and had no target there. -/
theorem hitNormals_bullet_active (b : Bullet) (s : Int) (as : List Alien) :
    (hitNormals b s as).bullet.active =
      (b.active && !(as.any (bulletTargets b.toGameObject))) := by
  induction as generalizing b s with
  | nil => simp [hitNormals]
  | cons a rest ih =>
    by_cases haa : a.active = true <;> cases hb : b.active <;>
      by_cases hint : rectIntersect b.toGameObject a.toGameObject = true <;>
      simp_all [hitNormals, hitNormals_deactivated, bulletTargets]

/-- The bullet leaves the heavy-alien scan active exactly when it entered
active and had no target there. -/
theorem hitHeavies_bullet_active (b : Bullet) (s : Int) (hs : List Alien) :
    (hitHeavies b s hs).bullet.active =
      (b.active && !(hs.any (bulletTargets b.toGameObject))) := by
  induction hs generalizing b s with
  | nil => simp [hitHeavies]
  | cons a rest ih =>
    by_cases haa : a.active = true <;> cases hb : b.active <;>
      by_cases hint : rectIntersect b.toGameObject a.toGameObject = true <;>
      simp_all [hitHeavies, hitHeavies_deactivated, bulletTargets]

/-- If the first alien of the normal list that an active bullet targets is
at index `i`, the scan deactivates exactly that alien and the bullet, adds
exactly 10 to the score, and leaves every other alien untouched. -/
theorem hitNormals_first (b : Bullet) (s : Int) (as : List Alien) (i : Nat) (hi : i < as.length)
    (hb : b.active = true) (ht : bulletTargets b.toGameObject as[i] = true)
    (hmin : ∀ j (hj : j < as.length), j < i → bulletTargets b.toGameObject as[j] = false) :
    hitNormals b s as =
      ⟨as.set i { as[i] with active := false }, { b with active := false }, s + 10⟩ := by
  induction as generalizing i with
  | nil => exact absurd hi (by simp)
  | cons a rest ih =>
    cases i with
    | zero =>
      have h0 : bulletTargets b.toGameObject a = true := ht
      have h1 := h0
      simp only [bulletTargets, Bool.and_eq_true] at h1
      simp [hitNormals, h1.1, h1.2, hb, hitNormals_deactivated]
    | succ i1 =>
      have h0 : bulletTargets b.toGameObject a = false := hmin 0 (by simp) (Nat.zero_lt_succ i1)
      have hi1 : i1 < rest.length := Nat.lt_of_succ_lt_succ hi
      have ht1 : bulletTargets b.toGameObject rest[i1] = true := ht
      have hmin1 : ∀ j (hj : j < rest.length), j < i1 →
          bulletTargets b.toGameObject rest[j] = false :=
        fun j hj hlt => hmin (j + 1) (Nat.succ_lt_succ hj) (Nat.succ_lt_succ hlt)
      have hcond : ¬(a.active = true ∧ rectIntersect b.toGameObject a.toGameObject = true) := by
        rintro ⟨haa, hint⟩
        simp [bulletTargets, haa, hint] at h0
      simp [hitNormals, hb, hcond, ih i1 hi1 ht1 hmin1]

/-- If the first alien of the heavy list that an active bullet targets is
at index `i`, the scan damages exactly that alien (hp − 1, deactivating it
and adding 50 to the score exactly when the new hp is ≤ 0), deactivates
the bullet, and leaves every other alien untouched. -/
theorem hitHeavies_first (b : Bullet) (s : Int) (hs : List Alien) (i : Nat) (hi : i < hs.length)
    (hb : b.active = true) (ht : bulletTargets b.toGameObject hs[i] = true)
    (hmin : ∀ j (hj : j < hs.length), j < i → bulletTargets b.toGameObject hs[j] = false) :
    hitHeavies b s hs =
      ⟨hs.set i (damageHeavy hs[i]), { b with active := false },
        if hs[i].hp - 1 ≤ 0 then s + 50 else s⟩ := by
  induction hs generalizing i with
  | nil => exact absurd hi (by simp)
  | cons a rest ih =>
    cases i with
    | zero =>
      have h0 : bulletTargets b.toGameObject a = true := ht
      have h1 := h0
      simp only [bulletTargets, Bool.and_eq_true] at h1
      simp [hitHeavies, h1.1, h1.2, hb, hitHeavies_deactivated]
    | succ i1 =>
      have h0 : bulletTargets b.toGameObject a = false := hmin 0 (by simp) (Nat.zero_lt_succ i1)
      have hi1 : i1 < rest.length := Nat.lt_of_succ_lt_succ hi
      have ht1 : bulletTargets b.toGameObject rest[i1] = true := ht
      have hmin1 : ∀ j (hj : j < rest.length), j < i1 →
          bulletTargets b.toGameObject rest[j] = false :=
        fun j hj hlt => hmin (j + 1) (Nat.succ_lt_succ hj) (Nat.succ_lt_succ hlt)
      have hcond : ¬(a.active = true ∧ rectIntersect b.toGameObject a.toGameObject = true) := by
        rintro ⟨haa, hint⟩
        simp [bulletTargets, haa, hint] at h0
      simp [hitHeavies, hb, hcond, ih i1 hi1 ht1 hmin1]

/-- One hit on a heavy alien decrements its hp by exactly 1, deactivates
it exactly when the new hp is ≤ 0, and otherwise leaves its active flag
(and everything else) unchanged. -/
theorem damageHeavy_spec (a : Alien) :
    (damageHeavy a).hp = a.hp - 1 ∧
    (a.hp - 1 ≤ 0 → (damageHeavy a).active = false) ∧
    (0 < a.hp - 1 → (damageHeavy a).active = a.active) ∧
    (damageHeavy a).toGameObject = a.toGameObject := by
  unfold damageHeavy
  split_ifs with h
  · exact ⟨rfl, fun _ => rfl, fun hc => absurd h (by omega), rfl⟩
  · exact ⟨rfl, fun hc => absurd hc h, fun _ => rfl, rfl⟩

/-- Claim C1: collision resolution per bullet. For an active bullet
processed by the collision block: (1) it ends deactivated precisely when
some alien of either list is active and overlaps it; (2) with no such
alien, nothing changes; (3) when the first targeted alien in scan order
(normals before heavies) is a normal alien, exactly that alien is
deactivated, the bullet is deactivated, and the score increases by exactly
10, all other aliens being untouched — so the bullet hits at most one
alien; (4) when it is a heavy alien, exactly that alien is damaged, the
bullet is deactivated, and the score increases by exactly 50 exactly when
the new hp is ≤ 0; (5) a heavy-alien hit decrements hp by exactly 1 and
deactivates exactly when the new hp is ≤ 0. -/
theorem collision_resolution_spec :
    ∀ (b : Bullet) (as hs : List Alien) (s : Int), b.active = true →
    ((processBullet b as hs s).bullet.active = false ↔
      (as.any (bulletTargets b.toGameObject) || hs.any (bulletTargets b.toGameObject)) = true) ∧
    (as.any (bulletTargets b.toGameObject) = false →
      hs.any (bulletTargets b.toGameObject) = false →
      processBullet b as hs s = ⟨as, hs, b, s⟩) ∧
    (∀ i (hi : i < as.length), bulletTargets b.toGameObject as[i] = true →
      (∀ j (hj : j < as.length), j < i → bulletTargets b.toGameObject as[j] = false) →
      processBullet b as hs s =
        ⟨as.set i { as[i] with active := false }, hs, { b with active := false }, s + 10⟩) ∧
    (as.any (bulletTargets b.toGameObject) = false →
      ∀ i (hi : i < hs.length), bulletTargets b.toGameObject hs[i] = true →
      (∀ j (hj : j < hs.length), j < i → bulletTargets b.toGameObject hs[j] = false) →
      processBullet b as hs s =
        ⟨as, hs.set i (damageHeavy hs[i]), { b with active := false },
          if hs[i].hp - 1 ≤ 0 then s + 50 else s⟩) ∧
    (∀ a : Alien, (damageHeavy a).hp = a.hp - 1 ∧
      (a.hp - 1 ≤ 0 → (damageHeavy a).active = false) ∧
      (0 < a.hp - 1 → (damageHeavy a).active = a.active)) := by
  intro b as hs s hb
  refine ⟨?_, ?_, ?_, ?_,
    fun a => ⟨(damageHeavy_spec a).1, (damageHeavy_spec a).2.1, (damageHeavy_spec a).2.2.1⟩⟩
  · have h1 := hitNormals_bullet_active b s as
    have hrect := hitNormals_bullet_rect b s as
    have h2 := hitHeavies_bullet_active (hitNormals b s as).bullet (hitNormals b s as).score hs
    rw [hrect] at h2
    show (hitHeavies (hitNormals b s as).bullet (hitNormals b s as).score hs).bullet.active
        = false ↔ _
    rw [h2, h1, hb]
    cases hA : as.any (bulletTargets b.toGameObject) <;>
      cases hB : hs.any (bulletTargets b.toGameObject) <;> simp
  · intro hA hB
    simp [processBullet, hitNormals_noTarget b s as hA, hitHeavies_noTarget b s hs hB]
  · intro i hi ht hmin
    simp [processBullet, hitNormals_first b s as i hi hb ht hmin, hitHeavies_deactivated]
  · intro hA i hi ht hmin
    simp [processBullet, hitNormals_noTarget b s as hA,
      hitHeavies_first b s hs i hi hb ht hmin]

/-- Claim C1 witness: the sample bullet deactivates the overlapping normal
alien for +10, and damages the overlapping 2-hp heavy alien (no
deactivation, no score). -/
theorem collision_resolution_spec_witness :
    processBullet sampleBullet [sampleAlien] [] 0 =
      ⟨[sampleAlien].set 0 { sampleAlien with active := false }, [],
        { sampleBullet with active := false }, 0 + 10⟩ ∧
    processBullet sampleBullet [] [sampleHeavy] 0 =
      ⟨[], [sampleHeavy].set 0 (damageHeavy sampleHeavy),
        { sampleBullet with active := false }, 0⟩ := by
  constructor
  · exact (collision_resolution_spec sampleBullet [sampleAlien] [] 0 rfl).2.2.1 0 (by decide)
      (by decide) (fun j hj hlt => absurd hlt (by omega))
  · have h := (collision_resolution_spec sampleBullet [] [sampleHeavy] 0 rfl).2.2.2.1 rfl 0
      (by decide) (by decide) (fun j hj hlt => absurd hlt (by omega))
    simpa [sampleHeavy] using h

/-- Arithmetic of a left step: from a positive multiple of 5 within the
range, stepping 5 left stays in `[0, 760]` and on the 5-grid. -/
theorem stepLeft_arith (x : ℚ) (k : ℤ) (hx : x = 5 * k) (h0 : 0 < x) (h1 : x ≤ 760) :
    0 ≤ x - 5 ∧ x - 5 ≤ 760 ∧ ∃ k2 : ℤ, x - 5 = 5 * k2 := by
  have hk1 : (1 : ℤ) ≤ k := by
    by_contra hc
    push_neg at hc
    have hc2 : (k : ℚ) ≤ 0 := by exact_mod_cast Int.lt_add_one_iff.mp hc
    nlinarith
  have h5 : (5 : ℚ) ≤ x := by
    have : (1 : ℚ) ≤ (k : ℚ) := by exact_mod_cast hk1
    nlinarith
  exact ⟨by linarith, by linarith, ⟨k - 1, by push_cast [hx]; ring⟩⟩

/-- Arithmetic of a right step: from a multiple of 5 strictly below 760,
stepping 5 right stays in `[0, 760]` and on the 5-grid. -/
theorem stepRight_arith (x : ℚ) (k : ℤ) (hx : x = 5 * k) (h0 : 0 ≤ x) (hlt : x < 760) :
    0 ≤ x + 5 ∧ x + 5 ≤ 760 ∧ ∃ k2 : ℤ, x + 5 = 5 * k2 := by
  have hk1 : k ≤ 151 := by
    by_contra hc
    push_neg at hc
    have hc2 : (152 : ℚ) ≤ (k : ℚ) := by exact_mod_cast hc
    nlinarith
  have h755 : x ≤ 755 := by
    have : (k : ℚ) ≤ 151 := by exact_mod_cast hk1
    nlinarith
  exact ⟨by linarith, by linarith, ⟨k + 1, by push_cast [hx]; ring⟩⟩

/-- The movement block preserves the player invariant: width stays 40 and
x stays a multiple of 5 in `[0, canvasWidth − width]`. -/
theorem movePlayer_spec (p : GameObject) (i : Input) (hw : p.width = 40) (h0 : 0 ≤ p.x)
    (h1 : p.x ≤ CANVAS_WIDTH - p.width) (hk : ∃ k : ℤ, p.x = 5 * k) :
    (movePlayer p i).width = 40 ∧ 0 ≤ (movePlayer p i).x ∧
    (movePlayer p i).x ≤ CANVAS_WIDTH - (movePlayer p i).width ∧
    ∃ k : ℤ, (movePlayer p i).x = 5 * k := by
  obtain ⟨k, hk⟩ := hk
  rw [CANVAS_WIDTH, hw] at h1
  have h1 : p.x ≤ 760 := by linarith
  unfold movePlayer PLAYER_SPEED
  simp only [CANVAS_WIDTH, hw]
  refine ⟨trivial, ?_⟩
  have hx1 : 0 ≤ (if i.arrowLeft = true ∧ 0 < p.x then p.x - 5 else p.x) ∧
      (if i.arrowLeft = true ∧ 0 < p.x then p.x - 5 else p.x) ≤ 760 ∧
      ∃ k2 : ℤ, (if i.arrowLeft = true ∧ 0 < p.x then p.x - 5 else p.x) = 5 * k2 := by
    by_cases hL : i.arrowLeft = true ∧ 0 < p.x
    · rw [if_pos hL]
      exact stepLeft_arith p.x k hk hL.2 h1
    · rw [if_neg hL]
      exact ⟨h0, h1, k, hk⟩
  obtain ⟨ha, hb, k1, hc⟩ := hx1
  by_cases hR : i.arrowRight = true ∧
      (if i.arrowLeft = true ∧ 0 < p.x then p.x - 5 else p.x) < 800 - 40
  · rw [if_pos hR]
    obtain ⟨h1a, h1b, h1c⟩ := stepRight_arith _ k1 hc ha (by linarith [hR.2])
    exact ⟨h1a, by linarith [h1b], h1c⟩
  · rw [if_neg hR]
    exact ⟨ha, by linarith [hb], k1, hc⟩

/-- The exact shape of a successful PLAYING tick (state PLAYING, gameOver
flag clear): the simulation runs, the store update (persist on game over,
no-op otherwise) succeeds with `st`, the gameOver flag records the
condition, and the state moves to LEVEL_TRANSITION exactly on level
completion. -/
theorem update_playing_eq (w : GameWorld) (i : Input) (dt : ℚ) (st : StoredVal)
    (hst : w.currentState = GameState.PLAYING) (hgo : w.gameOver = false)
    (hsv : (if gameOverCond (simulate w i)
            then saveScore (simulate w i).playerName (simulate w i).score (simulate w i).store
            else Except.ok (simulate w i).store) = Except.ok st) :
    update w i dt = Except.ok
      (if levelCompleteCond { simulate w i with gameOver := gameOverCond (simulate w i), store := st }
       then { simulate w i with gameOver := gameOverCond (simulate w i), store := st, currentState := GameState.LEVEL_TRANSITION, transitionTimer := 0 }
       else { simulate w i with gameOver := gameOverCond (simulate w i), store := st }) := by
  unfold update
  rw [if_neg (by simp [hst]), if_neg (by simp [hst]), if_neg (by simp [hgo])]
  dsimp only
  rw [hsv]

/-- `resetGame` re-establishes the player invariant (the player returns to
x = 380 = 5·76). -/
theorem resetGame_playerInv (w : GameWorld) (b : Bool) : PlayerInv (resetGame w b) := by
  refine ⟨rfl, by norm_num [resetGame, CANVAS_WIDTH], ?_, 76, by norm_num [resetGame, CANVAS_WIDTH]⟩
  norm_num [resetGame, CANVAS_WIDTH]

/-- Ticks in states other than LEVEL_TRANSITION and PLAYING leave the
world unchanged. -/
theorem update_other_states (w : GameWorld) (i : Input) (dt : ℚ)
    (h1 : w.currentState ≠ GameState.LEVEL_TRANSITION)
    (h2 : w.currentState ≠ GameState.PLAYING) : update w i dt = Except.ok w := by
  unfold update
  rw [if_neg h1, if_pos h2]

/-- A PLAYING tick with the gameOver flag already set only switches the
state to GAME_OVER. -/
theorem update_gameOver_flag (w : GameWorld) (i : Input) (dt : ℚ)
    (h1 : w.currentState = GameState.PLAYING) (h2 : w.gameOver = true) :
    update w i dt = Except.ok { w with currentState := GameState.GAME_OVER } := by
  unfold update
  rw [if_neg (by simp [h1]), if_neg (by simp [h1]), if_pos h2]

/-- Every successful tick preserves the player invariant. -/
theorem update_playerInv (w : GameWorld) (i : Input) (dt : ℚ) (w1 : GameWorld)
    (hw : PlayerInv w) (h : update w i dt = Except.ok w1) : PlayerInv w1 := by
  by_cases h1 : w.currentState = GameState.LEVEL_TRANSITION
  · by_cases h2 : 3000 < w.transitionTimer + dt
    · rw [((levelTransition_spec w i dt h1).1 h2).1] at h
      cases Except.ok.inj h
      exact resetGame_playerInv { w with transitionTimer := 0, currentLevel := w.currentLevel + 1 } false
    · rw [(levelTransition_spec w i dt h1).2 (not_lt.mp h2)] at h
      cases Except.ok.inj h
      exact hw
  · by_cases h2 : w.currentState = GameState.PLAYING
    · by_cases h3 : w.gameOver = true
      · rw [update_gameOver_flag w i dt h2 h3] at h
        cases Except.ok.inj h
        exact hw
      · have hgo : w.gameOver = false := by simpa using h3
        obtain ⟨st, hsv⟩ : ∃ st,
            (if gameOverCond (simulate w i)
             then saveScore (simulate w i).playerName (simulate w i).score (simulate w i).store
             else Except.ok (simulate w i).store) = Except.ok st := by
          cases hE : (if gameOverCond (simulate w i)
              then saveScore (simulate w i).playerName (simulate w i).score (simulate w i).store
              else Except.ok (simulate w i).store) with
          | ok st => exact ⟨st, rfl⟩
          | error e =>
            exfalso
            unfold update at h
            rw [if_neg h1, if_neg (by simp [h2]), if_neg (by simp [hgo])] at h
            dsimp only at h
            rw [hE] at h
            exact Except.noConfusion h
        rw [update_playing_eq w i dt st h2 hgo hsv] at h
        cases Except.ok.inj h
        have hp := movePlayer_spec w.player i hw.1 hw.2.1 hw.2.2.1 hw.2.2.2
        by_cases hlc : levelCompleteCond
            { simulate w i with gameOver := gameOverCond (simulate w i), store := st } = true
        · rw [if_pos hlc]
          exact ⟨hp.1, hp.2.1, hp.2.2.1, hp.2.2.2⟩
        · rw [if_neg hlc]
          exact ⟨hp.1, hp.2.1, hp.2.2.1, hp.2.2.2⟩
    · rw [update_other_states w i dt h1 h2] at h
      cases Except.ok.inj h
      exact hw

/-- Claim C2: the player is horizontally constrained to the canvas. Any
reset (new game or level regeneration) establishes the player invariant,
and from any world satisfying it, after any trace of ticks under any
inputs, the player's x lies within `[0, canvasWidth − width]`. -/
theorem player_stays_in_bounds :
    (∀ (w : GameWorld) (b : Bool), PlayerInv (resetGame w b)) ∧
    (∀ (trace : List (Input × ℚ)) (w w1 : GameWorld), PlayerInv w →
      run w trace = Except.ok w1 →
      0 ≤ w1.player.x ∧ w1.player.x ≤ CANVAS_WIDTH - w1.player.width) := by
  have hrun : ∀ (trace : List (Input × ℚ)) (w w1 : GameWorld), PlayerInv w →
      run w trace = Except.ok w1 → PlayerInv w1 := by
    intro trace
    induction trace with
    | nil =>
      intro w w1 hw h
      cases Except.ok.inj h
      exact hw
    | cons p rest ih =>
      intro w w1 hw h
      rw [run] at h
      cases hE : update w p.1 p.2 with
      | ok w2 =>
        rw [hE] at h
        exact ih w2 w1 (update_playerInv w p.1 p.2 w2 hw hE) h
      | error e =>
        rw [hE] at h
        exact Except.noConfusion h
  refine ⟨resetGame_playerInv, fun trace w w1 hw h => ?_⟩
  obtain ⟨-, hA, hB, -⟩ := hrun trace w w1 hw h
  exact ⟨hA, hB⟩

/-- Claim C2 witness: starting a new game from `sampleWorld` and running
the empty trace leaves the player within the canvas. -/
theorem player_stays_in_bounds_witness :
    0 ≤ (resetGame sampleWorld true).player.x ∧
    (resetGame sampleWorld true).player.x ≤
      CANVAS_WIDTH - (resetGame sampleWorld true).player.width :=
  player_stays_in_bounds.2 [] (resetGame sampleWorld true) (resetGame sampleWorld true)
    (player_stays_in_bounds.1 sampleWorld true) rfl

/-- The game-over condition requires an active alien, so it excludes the
level-complete condition on the same world. -/
theorem gameOverCond_not_levelComplete (w : GameWorld) (hgo : gameOverCond w = true) :
    levelCompleteCond w = false := by
  simp only [gameOverCond, Bool.or_eq_true, List.any_eq_true, Bool.and_eq_true,
    decide_eq_true_eq] at hgo
  by_contra hc
  rw [Bool.not_eq_false] at hc
  simp only [levelCompleteCond, Bool.and_eq_true, List.all_eq_true] at hc
  rcases hgo with ⟨a, hmem, hact, -⟩ | ⟨a, hmem, hact, -⟩
  · have := hc.1 a hmem
    simp [hact] at this
  · have := hc.2 a hmem
    simp [hact] at this

/-- Claim C6: when during a PLAYING tick (gameOver flag clear) some active
alien of either formation has reached or passed the player's y-coordinate,
that same tick marks the session over and persists `(playerName, score)`
through `saveScore`, while the state is still PLAYING; the transition out
of PLAYING to GAME_OVER happens on the next tick, which changes nothing
else — so the score is persisted before the state machine leaves PLAYING. -/
theorem gameOver_persists_spec :
    (∀ (w : GameWorld) (i : Input) (dt : ℚ) (st : StoredVal),
      w.currentState = GameState.PLAYING → w.gameOver = false →
      gameOverCond (simulate w i) = true →
      saveScore w.playerName (simulate w i).score w.store = Except.ok st →
      update w i dt = Except.ok { simulate w i with gameOver := true, store := st } ∧
      ({ simulate w i with gameOver := true, store := st } : GameWorld).currentState =
        GameState.PLAYING ∧
      ({ simulate w i with gameOver := true, store := st } : GameWorld).gameOver = true) ∧
    (∀ (w : GameWorld) (i : Input) (dt : ℚ),
      w.currentState = GameState.PLAYING → w.gameOver = true →
      update w i dt = Except.ok { w with currentState := GameState.GAME_OVER }) := by
  constructor
  · intro w i dt st hst hgo hcond hsave
    have hsv : (if gameOverCond (simulate w i)
        then saveScore (simulate w i).playerName (simulate w i).score (simulate w i).store
        else Except.ok (simulate w i).store) = Except.ok st := by
      rw [if_pos hcond]
      exact hsave
    have hlc : levelCompleteCond
        { simulate w i with gameOver := gameOverCond (simulate w i), store := st } = false :=
      gameOverCond_not_levelComplete (simulate w i) hcond
    refine ⟨?_, hst, rfl⟩
    rw [update_playing_eq w i dt st hst hgo hsv, if_neg (by simp [hlc]), hcond]
  · exact fun w i dt hst hgo => update_gameOver_flag w i dt hst hgo

/-- Claim C6 witness: in `gameOverWorld` the active alien sits at the
player's row; the tick sets the flag, persists ("AB", 0) into the store,
stays in PLAYING, and the following tick moves to GAME_OVER. -/
theorem gameOver_persists_witness :
    (update gameOverWorld idleInput 16 =
      Except.ok { simulate gameOverWorld idleInput with gameOver := true, store := StoredVal.entries [{ name := "AB", score := 0 }] } ∧
      ({ simulate gameOverWorld idleInput with gameOver := true, store := StoredVal.entries [{ name := "AB", score := 0 }] } : GameWorld).currentState = GameState.PLAYING ∧
      ({ simulate gameOverWorld idleInput with gameOver := true, store := StoredVal.entries [{ name := "AB", score := 0 }] } : GameWorld).gameOver = true) ∧
    update { gameOverWorld with gameOver := true } idleInput 16 =
      Except.ok { { gameOverWorld with gameOver := true } with currentState := GameState.GAME_OVER } :=
  ⟨gameOver_persists_spec.1 gameOverWorld idleInput 16
      (StoredVal.entries [{ name := "AB", score := 0 }]) rfl rfl (by decide) rfl,
    gameOver_persists_spec.2 { gameOverWorld with gameOver := true } idleInput 16 rfl rfl⟩
